import Mathlib

/-!
Shallow embedding of `Bio/MultiProc/copen.py`: a process-handle library that
wraps fork/exec (`copen_sys`) and fork/call (`copen_fn`) children in file-like
handle objects (`_CommandHandle`, `_PickleHandle`), with a module-wide registry
of live handles (`_active`) and a SIGTERM hook (`_handle_sigterm`/`_cleanup`).

Modelling conventions:
- byte strings (pipe contents, outputs, pickle payloads) are `List Char`;
- a pipe read end (`os.fdopen(r, 'r')`) is a `Stream`: the full sequence of
  bytes the child writes before exiting, plus a closed flag.  `select` on the
  handle reports readiness; `readlines` drains to EOF;
- OS nondeterminism (how the child reacts to the kill sequence, the raw
  `waitpid` status word, wall-clock times) is passed in as explicit parameters
  (`ChildBehavior`, `exitInd`, `now`);
- Python exceptions do not roll back mutations, so each operation returns a
  result record carrying the mutated handle and registry together with an
  optional raised error, instead of `Except`;
- the pickle codec is a parameter (`dumps`/`loads`, `eloads` for the error
  triple), since it is library code outside this repository.
-/

namespace Copen

/-- Numeric value of `signal.SIGTERM` on the platforms this module targets. -/
def SIGTERM : Nat := 15

/-- Numeric value of `signal.SIGKILL`. -/
def SIGKILL : Nat := 9

/-- A read-side pipe file object: the bytes it will deliver before EOF, and
whether `.close()` has been called on it.  `fileno()` on a closed file object
raises `ValueError` in Python, which is how `select` fails after cleanup. -/
structure Stream where
  content : List Char
  closed : Bool
deriving Repr, DecidableEq

/-- State of a `_CommandHandle` (its instance attributes). -/
structure Handle where
  hid : Nat
  pid : Nat
  status : Option Nat
  killsig : Option Nat
  startTime : Nat
  endTime : Option Nat
  cread : Stream
  errread : Option Stream
  output : List (List Char)
  done : Bool
  closed : Bool
deriving Repr, DecidableEq

/-- Constructor `_CommandHandle.__init__`: fresh handle around a forked child.  `ccontent`
is everything the child writes to the stdout pipe, `econtent` (when an error
pipe was given) everything it writes to the stderr pipe. -/
def mkHandle (hid pid now : Nat) (ccontent : List Char) (econtent : Option (List Char)) :
    Handle where
  hid := hid
  pid := pid
  status := none
  killsig := none
  startTime := now
  endTime := none
  cread := ⟨ccontent, false⟩
  errread := econtent.map (fun e => ⟨e, false⟩)
  output := []
  done := false
  closed := false

/-- How the child process responds to `_kill`'s waitpid/SIGTERM/SIGKILL
sequence.  This is the environment oracle for the only OS interaction whose
outcome the parent cannot determine. -/
inductive ChildBehavior where
  /-- The child has already terminated: the first `waitpid(WNOHANG)` collects
  its status word `ind`. -/
  | exited (ind : Nat)
  /-- The child is alive and dies within the 0.5 s grace window after SIGTERM,
  with status word `ind`. -/
  | diesInGrace (ind : Nat)
  /-- The child is alive and still running when the grace window expires. -/
  | survives
  /-- No such child: `waitpid` raises `OSError` (swallowed by `_kill`). -/
  | gone
deriving Repr, DecidableEq

/-- Result of `_CommandHandle._kill`: the value it returns (`none` models the
`except OSError: pass` path falling off the end), the signals delivered to the
child in order, and how many times a `waitpid` call collected the child's
status. -/
structure KillOut where
  ret : Option Nat
  signals : List Nat
  reaps : Nat
deriving Repr, DecidableEq

/-- Model of `_CommandHandle._kill`, branch by branch:
already dead → reap, return 0; sends SIGTERM and polls `waitpid(WNOHANG)`
through the grace window, returning `ind & 0xff` if the child dies; otherwise
sends SIGKILL and returns SIGKILL without any further `waitpid`. -/
def kill (b : ChildBehavior) : KillOut :=
  match b with
  | .exited _ => ⟨some 0, [], 1⟩
  | .diesInGrace ind => ⟨some (ind % 256), [SIGTERM], 1⟩
  | .survives => ⟨some SIGKILL, [SIGTERM, SIGKILL], 0⟩
  | .gone => ⟨none, [], 0⟩

/-- Result of `_CommandHandle.close`: the mutated handle, the registry
(`_active`) after the guarded self-removal, the signals sent and the number of
successful reaps (both coming from `_kill` when it runs). -/
structure CloseOut where
  h : Handle
  reg : List Handle
  signals : List Nat
  reaps : Nat
deriving Repr, DecidableEq

/-- Model of `_CommandHandle.close`.  Returns immediately when `_closed` is set;
otherwise removes itself from `_active` (guarded membership test, so a no-op
when absent), and when not `_done` runs `_kill`, stamps `_end`, sets
`status = None` and — overwriting the value `_kill` just returned —
`killsig = signal.SIGTERM`, marks `_done`; in all cases discards the buffered
output and sets `_closed`. -/
def closeH (h : Handle) (reg : List Handle) (b : ChildBehavior) (now : Nat) : CloseOut :=
  if h.closed then ⟨h, reg, [], 0⟩
  else
    let reg1 := reg.eraseP (fun x => x.hid == h.hid)
    if h.done then
      ⟨{ h with output := [], closed := true }, reg1, [], 0⟩
    else
      let k := kill b
      ⟨{ h with killsig := some SIGTERM, endTime := some now, status := none,
                done := true, output := [], closed := true },
        reg1, k.signals, k.reaps⟩

/-- Python `file.readlines()` on drained content: split into lines, each
keeping its trailing newline; a final unterminated chunk forms a last line.
`acc` holds the current line's characters in reverse. -/
def readlinesAux : List Char → List Char → List (List Char)
  | [], acc => if acc.isEmpty then [] else [acc.reverse]
  | c :: cs, acc =>
      if c = '\n' then (acc.reverse ++ ['\n']) :: readlinesAux cs []
      else readlinesAux cs (c :: acc)

/-- Model of `self._cread.readlines()`: everything the stream delivers, as lines. -/
def readlines (s : List Char) : List (List Char) :=
  readlinesAux s []

/-- Errors that the handle operations can raise in the parent process. -/
inductive PyErr where
  /-- Python `raise etype, value` in `_cleanup_child` after unpickling a non-empty
  stderr payload (the traceback component is dropped by the source). -/
  | childError (etype evalue : List Char)
  /-- Python `ValueError` from `select` calling `fileno()` on a closed file object. -/
  | valueError
deriving Repr, DecidableEq

/-- Result of `_cleanup_child` (and of `wait`/`poll`, which run it): the
mutated handle, the registry after any self-removal, the error raised if any
(mutations made before the raise persist, as in Python), and the number of
`waitpid` status collections performed. -/
structure CleanupOut where
  h : Handle
  reg : List Handle
  raised : Option PyErr
  reaps : Nat
deriving Repr, DecidableEq

/-- Tail of `_cleanup_child` after the error check: remove self from
`_active` (guarded), `os.waitpid(self.pid, 0)` collecting the status word
`exitInd`, record `status = ind >> 8` and `killsig = ind & 0xff`, stamp
`_end`, set `_done`. -/
def finishCleanup (h : Handle) (reg : List Handle) (exitInd now : Nat) : CleanupOut :=
  ⟨{ h with status := some (exitInd / 256), killsig := some (exitInd % 256),
            endTime := some now, done := true },
    reg.eraseP (fun x => x.hid == h.hid), none, 1⟩

/-- Model of `_CommandHandle._cleanup_child`.  No-op when `_done`.  Otherwise drains
and closes the stdout stream into `_output`; if an error stream exists, drains
and closes it, and when its payload is non-empty unpickles it with `eloads`
into an `(etype, value, tb)` triple and raises `etype, value` — before the
registry removal, the reap and the `_done` mark; otherwise finishes cleanup. -/
def cleanupChild (eloads : List Char → List Char × List Char × List Char)
    (h : Handle) (reg : List Handle) (exitInd now : Nat) : CleanupOut :=
  if h.done then ⟨h, reg, none, 0⟩
  else
    let h1 := { h with output := readlines h.cread.content, cread := ⟨[], true⟩ }
    match h1.errread with
    | some er =>
        let h2 := { h1 with errread := some ⟨[], true⟩ }
        if er.content.isEmpty then
          finishCleanup h2 reg exitInd now
        else
          let t := eloads er.content
          ⟨h2, reg, some (.childError t.1 t.2.1), 0⟩
    | none => finishCleanup h1 reg exitInd now

/-- Model of `_CommandHandle.wait`.  Returns at once when `_done`; otherwise
`select.select([self], [], [])` — which calls `self.fileno()`, i.e.
`self._cread.fileno()`, raising `ValueError` if that file object is closed —
blocks until the child's output is ready, then runs `_cleanup_child`. -/
def waitH (eloads : List Char → List Char × List Char × List Char)
    (h : Handle) (reg : List Handle) (exitInd now : Nat) : CleanupOut :=
  if h.done then ⟨h, reg, none, 0⟩
  else if h.cread.closed then ⟨h, reg, some .valueError, 0⟩
  else cleanupChild eloads h reg exitInd now

/-- Model of `_CommandHandle.poll`.  Returns `1` at once when `_done`; otherwise a
zero-timeout `select` (again raising `ValueError` on a closed stdout file)
reports readiness `ready`; if ready, runs `_cleanup_child`; returns `_done`.
The `Bool` is the value `poll` returns when nothing was raised. -/
def pollH (eloads : List Char → List Char × List Char × List Char)
    (h : Handle) (reg : List Handle) (ready : Bool) (exitInd now : Nat) :
    CleanupOut × Bool :=
  if h.done then (⟨h, reg, none, 0⟩, true)
  else if h.cread.closed then (⟨h, reg, some .valueError, 0⟩, false)
  else if ready then
    let o := cleanupChild eloads h reg exitInd now
    (o, o.h.done)
  else (⟨h, reg, none, 0⟩, false)

/-- Result of `_CommandHandle.read`: like `CleanupOut` plus the returned
string (meaningful only when nothing was raised). -/
structure ReadOut where
  h : Handle
  reg : List Handle
  raised : Option PyErr
  result : List Char
  reaps : Nat
deriving Repr, DecidableEq

/-- Model of `_CommandHandle.read`: `self.wait()`, then return `"".join(self._output)`
and clear the buffer. -/
def readH (eloads : List Char → List Char × List Char × List Char)
    (h : Handle) (reg : List Handle) (exitInd now : Nat) : ReadOut :=
  let o := waitH eloads h reg exitInd now
  match o.raised with
  | some e => ⟨o.h, o.reg, some e, [], o.reaps⟩
  | none => ⟨{ o.h with output := [] }, o.reg, none, o.h.output.flatten, o.reaps⟩

/-- One parent-side lifecycle call on a handle, with its environment inputs
(`exitInd`, wall-clock `now`, `select` readiness, child kill behavior). -/
inductive Op where
  | wait (exitInd now : Nat)
  | poll (ready : Bool) (exitInd now : Nat)
  | read (exitInd now : Nat)
  | close (b : ChildBehavior) (now : Nat)
deriving Repr, DecidableEq

/-- Effect of one lifecycle call on the handle and registry, together with the
number of `waitpid` status collections it performed. -/
def step (eloads : List Char → List Char × List Char × List Char)
    (h : Handle) (reg : List Handle) : Op → Handle × List Handle × Nat
  | .wait i n => let o := waitH eloads h reg i n; (o.h, o.reg, o.reaps)
  | .poll r i n => let o := (pollH eloads h reg r i n).1; (o.h, o.reg, o.reaps)
  | .read i n => let o := readH eloads h reg i n; (o.h, o.reg, o.reaps)
  | .close b n => let o := closeH h reg b n; (o.h, o.reg, o.reaps)

/-- Run a sequence of lifecycle calls, accumulating the total reap count. -/
def runOps (eloads : List Char → List Char × List Char × List Char)
    (h : Handle) (reg : List Handle) : List Op → Handle × List Handle × Nat
  | [] => (h, reg, 0)
  | op :: ops =>
      let s := step eloads h reg op
      let r := runOps eloads s.1 s.2.1 ops
      (r.1, r.2.1, s.2.2 + r.2.2)

/-- Recognizes traces made only of `poll` calls (any readiness outcomes). -/
def pollsOnly (ops : List Op) : Bool :=
  ops.all fun op =>
    match op with
    | .poll _ _ _ => true
    | _ => false

/-- Value produced by `_PickleHandle.read`. -/
inductive PRead (α : Type) where
  /-- the wrapped read returned the empty string, returned as-is (`if not r`) -/
  | empty
  /-- call to `pickle.loads(r)` succeeded -/
  | value (v : α)
  /-- the wrapped `read` raised; the error propagates -/
  | raised (e : PyErr)
  /-- call to `pickle.loads(r)` failed on the payload -/
  | unpickleError
deriving Repr, DecidableEq

/-- Model of `_PickleHandle.read`: delegate to the wrapped `_CommandHandle.read`; if
the string is empty return it unchanged, else unpickle it with `loads`. -/
def pickleRead (α : Type) (loads : List Char → Option α)
    (eloads : List Char → List Char × List Char × List Char)
    (h : Handle) (reg : List Handle) (exitInd now : Nat) :
    PRead α × Handle × List Handle :=
  let o := readH eloads h reg exitInd now
  match o.raised with
  | some e => (.raised e, o.h, o.reg)
  | none =>
      if o.result.isEmpty then (.empty, o.h, o.reg)
      else
        match loads o.result with
        | some v => (.value v, o.h, o.reg)
        | none => (.unpickleError, o.h, o.reg)

/-- How an attribute access on a `_PickleHandle` resolves. -/
inductive Dispatch where
  /-- found on the class itself: `_PickleHandle.read`, the deserializing
  override -/
  | ownRead
  /-- lookup where `__getattr__` raises `AttributeError` -/
  | attrError
  /-- lookup where `__getattr__` returns `getattr(self._cmd_handle, attr)` -/
  | forward
deriving Repr, DecidableEq

/-- Attribute resolution on `_PickleHandle`: `read` is defined on the class so
`__getattr__` is never consulted for it; `__getattr__` raises
`AttributeError` for any name starting with `readline`, and forwards every
other name to the wrapped `_cmd_handle`. -/
def pickleAttr (attr : List Char) : Dispatch :=
  if attr = "read".toList then .ownRead
  else if ("readline".toList).isPrefixOf attr then .attrError
  else .forward

/-- Module-level state relevant to the SIGTERM machinery: the `_active`
registry, the currently installed SIGTERM disposition, and a log of the
handlers actually invoked while handling a delivery. -/
structure SigWorld where
  active : List Handle
  disposition : Nat
  invoked : List Nat
deriving Repr, DecidableEq

/-- Model of `_cleanup`: `for obj in _active[:]: obj.close()` — iterate a snapshot of
the registry, closing each handle; each `close` removes that handle from the
live registry.  Returns the closed handle states and the final registry. -/
def cleanupAll (b : Nat → ChildBehavior) (now : Nat) :
    List Handle → List Handle → List Handle × List Handle
  | [], active => ([], active)
  | h :: rest, active =>
      let o := closeH h active (b h.hid) now
      let r := cleanupAll b now rest o.reg
      (o.h :: r.1, r.2)

/-- Model of `_handle_sigterm(signum, stackframe)`: run `_cleanup()`, then — when a
previous handler was recorded — `signal.signal(signal.SIGTERM, _PREV_SIGTERM)`,
which only reinstalls the previous disposition; no handler is called, so the
invocation log is left untouched.  Returns the new module state and the closed
handle states. -/
def handleSigterm (prev : Option Nat) (b : Nat → ChildBehavior) (now : Nat)
    (w : SigWorld) : SigWorld × List Handle :=
  let r := cleanupAll b now w.active w.active
  let disp := match prev with
    | some p => p
    | none => w.disposition
  (⟨r.2, disp, w.invoked⟩, r.1)

/-- Concrete stand-in for the pickle codec over `Nat`, used to instantiate the
codec-parametric theorems on concrete inputs: `dumps0 n` is `n + 1` copies of
the byte 'a' (never empty, like a real pickle payload). -/
def dumps0 (n : Nat) : List Char :=
  List.replicate (n + 1) 'a'

/-- Left inverse of `dumps0`. -/
def loads0 (l : List Char) : Option Nat :=
  some (l.length - 1)

/-- Concrete stand-in for unpickling an error triple: every payload decodes to
a fixed (kind, message, trace) triple. -/
def eloads0 (_ : List Char) : List Char × List Char × List Char :=
  ("SomeError".toList, "bad input".toList, [])

theorem readlinesAux_flatten (s : List Char) :
    ∀ acc, (readlinesAux s acc).flatten = acc.reverse ++ s := by
  induction s with
  | nil =>
      intro acc
      by_cases hacc : acc.isEmpty
      · simp [readlinesAux, hacc, List.isEmpty_iff.mp hacc]
      · simp [readlinesAux, hacc]
  | cons c cs ih =>
      intro acc
      by_cases hc : c = '\n'
      · subst hc
        simp [readlinesAux, ih]
      · simp [readlinesAux, hc, ih]

/-- Splitting drained pipe content into lines loses no bytes: joining the
lines gives back the content. -/
theorem readlines_flatten (s : List Char) : (readlines s).flatten = s := by
  simpa using readlinesAux_flatten s []

/-- C4: for every external-command handle whose child has completed, the
first `read()` returns the concatenation of all bytes `w` the child wrote to
its standard output, and a second `read()` immediately afterwards returns the
empty string.  (The first `read` forces completion through `wait`; the child
wrote nothing to the error pipe.) -/
theorem c4_read_all_then_empty
    (eloads : List Char → List Char × List Char × List Char)
    (hid pid t0 : Nat) (w : List Char) (reg : List Handle) (i n i2 n2 : Nat) :
    (readH eloads (mkHandle hid pid t0 w (some [])) reg i n).raised = none ∧
    (readH eloads (mkHandle hid pid t0 w (some [])) reg i n).result = w ∧
    (readH eloads
      (readH eloads (mkHandle hid pid t0 w (some [])) reg i n).h
      (readH eloads (mkHandle hid pid t0 w (some [])) reg i n).reg i2 n2).raised = none ∧
    (readH eloads
      (readH eloads (mkHandle hid pid t0 w (some [])) reg i n).h
      (readH eloads (mkHandle hid pid t0 w (some [])) reg i n).reg i2 n2).result = [] := by
  simp [readH, waitH, cleanupChild, finishCleanup, mkHandle, readlines_flatten]

/-- C7: `close()` never raises (it is a total function: the only fallible OS
calls are inside `_kill`'s `try/except OSError`) and is idempotent: a second
`close()` on the result of a first one returns the state unchanged with no
signals sent and no reap, and a `close()` after natural completion
(`_done` set) sends no signals and performs no reap. -/
theorem c7_close_idempotent_no_signals
    (h : Handle) (reg : List Handle) (b b' : ChildBehavior) (now now' : Nat) :
    closeH (closeH h reg b now).h (closeH h reg b now).reg b' now' =
      ⟨(closeH h reg b now).h, (closeH h reg b now).reg, [], 0⟩ ∧
    (h.done = true →
      (closeH h reg b now).signals = [] ∧ (closeH h reg b now).reaps = 0) := by
  constructor
  · by_cases hc : h.closed <;> by_cases hd : h.done <;> simp [closeH, hc, hd]
  · intro hd
    by_cases hc : h.closed <;> simp [closeH, hc, hd]

/-- Witness for C7 at a concrete, naturally-completed handle. -/
theorem c7_witness :
    closeH (closeH { mkHandle 0 101 0 [] none with done := true } [] .survives 5).h
        (closeH { mkHandle 0 101 0 [] none with done := true } [] .survives 5).reg
        .gone 6 =
      ⟨(closeH { mkHandle 0 101 0 [] none with done := true } [] .survives 5).h,
        (closeH { mkHandle 0 101 0 [] none with done := true } [] .survives 5).reg, [], 0⟩ ∧
    (closeH { mkHandle 0 101 0 [] none with done := true } [] .survives 5).signals = [] ∧
    (closeH { mkHandle 0 101 0 [] none with done := true } [] .survives 5).reaps = 0 :=
  ⟨(c7_close_idempotent_no_signals { mkHandle 0 101 0 [] none with done := true }
      [] .survives .gone 5 6).1,
    (c7_close_idempotent_no_signals { mkHandle 0 101 0 [] none with done := true }
      [] .survives .gone 5 6).2 (by decide)⟩

/-- C3: evaluation of `close()` on still-running handles showing the recorded
`killsig` is unconditionally `SIGTERM`: when the child had already exited
before any signal was sent (`_kill` reaps immediately, sends nothing and
returns 0), and also when escalation to `SIGKILL` occurred, `close` overwrites
the value `_kill` returned with `signal.SIGTERM`. -/
theorem c3_killsig_always_sigterm :
    (closeH (mkHandle 0 101 0 [] none) [] (.exited 0) 5).h.killsig = some SIGTERM ∧
    (kill (.exited 0)).signals = [] ∧
    (kill (.exited 0)).ret = some 0 ∧
    (closeH (mkHandle 0 101 0 [] none) [] .survives 5).h.killsig = some SIGTERM ∧
    (kill .survives).signals = [SIGTERM, SIGKILL] ∧
    (kill .survives).ret = some SIGKILL := by
  decide

/-- C1: evaluation of the SIGTERM handler on a module state with two live
handles and a previously-installed handler 7: every live handle is closed and
the registry is emptied, but handler 7 is merely reinstalled as the
disposition — the invocation log stays empty, i.e. the previous handler is
never called during this delivery. -/
theorem c1_sigterm_closes_all_reinstalls_prev :
    (handleSigterm (some 7) (fun _ => .exited 0) 9
        ⟨[mkHandle 0 1 0 [] none, mkHandle 1 2 0 [] none], 5, []⟩).1.active = [] ∧
    (handleSigterm (some 7) (fun _ => .exited 0) 9
        ⟨[mkHandle 0 1 0 [] none, mkHandle 1 2 0 [] none], 5, []⟩).1.disposition = 7 ∧
    (handleSigterm (some 7) (fun _ => .exited 0) 9
        ⟨[mkHandle 0 1 0 [] none, mkHandle 1 2 0 [] none], 5, []⟩).1.invoked = [] ∧
    ((handleSigterm (some 7) (fun _ => .exited 0) 9
        ⟨[mkHandle 0 1 0 [] none, mkHandle 1 2 0 [] none], 5, []⟩).2).all
      Handle.closed = true := by
  decide

theorem cleanupChild_reaps
    (eloads : List Char → List Char × List Char × List Char)
    (h : Handle) (reg : List Handle) (i n : Nat) (hd : h.done = false) :
    (cleanupChild eloads h reg i n).reaps ≤ 1 ∧
    ((cleanupChild eloads h reg i n).h.done = false →
      (cleanupChild eloads h reg i n).reaps = 0) := by
  unfold cleanupChild
  cases herr : h.errread with
  | none => simp [hd, herr, finishCleanup]
  | some er =>
      by_cases he : er.content.isEmpty <;> simp [hd, herr, he, finishCleanup]

theorem step_done
    (eloads : List Char → List Char × List Char × List Char)
    (h : Handle) (reg : List Handle) (op : Op) (hd : h.done = true) :
    (step eloads h reg op).2.2 = 0 ∧ (step eloads h reg op).1.done = true := by
  cases op with
  | wait i n => simp [step, waitH, hd]
  | poll r i n => simp [step, pollH, hd]
  | read i n => simp [step, readH, waitH, hd]
  | close b n => by_cases hc : h.closed <;> simp [step, closeH, hc, hd]

theorem step_reaps
    (eloads : List Char → List Char × List Char × List Char)
    (h : Handle) (reg : List Handle) (op : Op) (hd : h.done = false) :
    (step eloads h reg op).2.2 ≤ 1 ∧
    ((step eloads h reg op).1.done = false → (step eloads h reg op).2.2 = 0) := by
  cases op with
  | wait i n =>
      by_cases hc : h.cread.closed
      · simp [step, waitH, hd, hc]
      · simpa [step, waitH, hd, hc] using cleanupChild_reaps eloads h reg i n hd
  | poll r i n =>
      by_cases hc : h.cread.closed
      · simp [step, pollH, hd, hc]
      · cases r with
        | false => simp [step, pollH, hd, hc]
        | true => simpa [step, pollH, hd, hc] using cleanupChild_reaps eloads h reg i n hd
  | read i n =>
      by_cases hc : h.cread.closed
      · simp [step, readH, waitH, hd, hc]
      · have hcl := cleanupChild_reaps eloads h reg i n hd
        cases hr : (cleanupChild eloads h reg i n).raised with
        | none => simpa [step, readH, waitH, hd, hc, hr] using hcl
        | some e => simpa [step, readH, waitH, hd, hc, hr] using hcl
  | close b n =>
      by_cases hc : h.closed
      · simp [step, closeH, hc]
      · cases b <;> simp [step, closeH, hc, hd, kill]

theorem runOps_reaps_done
    (eloads : List Char → List Char × List Char × List Char) (ops : List Op) :
    ∀ (h : Handle) (reg : List Handle), h.done = true →
      (runOps eloads h reg ops).2.2 = 0 := by
  induction ops with
  | nil => intro h reg _; rfl
  | cons op ops ih =>
      intro h reg hd
      have hs := step_done eloads h reg op hd
      have hrest := ih (step eloads h reg op).1 (step eloads h reg op).2.1 hs.2
      simp [runOps, hs.1, hrest]

theorem runOps_reaps_le
    (eloads : List Char → List Char × List Char × List Char) (ops : List Op) :
    ∀ (h : Handle) (reg : List Handle), (runOps eloads h reg ops).2.2 ≤ 1 := by
  induction ops with
  | nil => intro h reg; simp [runOps]
  | cons op ops ih =>
      intro h reg
      by_cases hd : h.done
      · simpa using Nat.le_of_eq
          (runOps_reaps_done eloads (op :: ops) h reg (by simpa using hd)) |>.trans
          (Nat.zero_le 1 |> fun _ => Nat.le_of_lt_succ (by omega))
      · have hd' : h.done = false := by simpa using hd
        have hs := step_reaps eloads h reg op hd'
        by_cases hd2 : (step eloads h reg op).1.done
        · have hrest := runOps_reaps_done eloads ops (step eloads h reg op).1
            (step eloads h reg op).2.1 (by simpa using hd2)
          simp [runOps, hrest]
          omega
        · have hz := hs.2 (by simpa using hd2)
          have hrest := ih (step eloads h reg op).1 (step eloads h reg op).2.1
          simp [runOps, hz]
          omega

theorem cleanup_completes
    (eloads : List Char → List Char × List Char × List Char)
    (h : Handle) (reg : List Handle) (i n : Nat)
    (hd : h.done = false) (herr : ∀ er, h.errread = some er → er.content = []) :
    (cleanupChild eloads h reg i n).reaps = 1 ∧
    (cleanupChild eloads h reg i n).h.done = true ∧
    (cleanupChild eloads h reg i n).raised = none := by
  unfold cleanupChild
  cases he : h.errread with
  | none => simp [hd, he, finishCleanup]
  | some er =>
      have hec : er.content = [] := herr er he
      simp [hd, he, hec, finishCleanup]

theorem runOps_cons_total
    (eloads : List Char → List Char × List Char × List Char)
    (h : Handle) (reg : List Handle) (op : Op) (ops : List Op) :
    (runOps eloads h reg (op :: ops)).2.2 =
      (step eloads h reg op).2.2 +
      (runOps eloads (step eloads h reg op).1 (step eloads h reg op).2.1 ops).2.2 :=
  rfl

theorem runOps_cons_of_step
    (eloads : List Char → List Char × List Char × List Char)
    (h : Handle) (reg : List Handle) (op : Op) (ops : List Op) (k : Nat)
    (h1 : (step eloads h reg op).2.2 = k)
    (h2 : (step eloads h reg op).1.done = true) :
    (runOps eloads h reg (op :: ops)).2.2 = k := by
  have hrest := runOps_reaps_done eloads ops (step eloads h reg op).1
    (step eloads h reg op).2.1 h2
  rw [runOps_cons_total, h1, hrest]
  exact Nat.add_zero k

/-- C2 (amended): over any sequence of wait/poll/read/close calls, the child's
exit status is collected at most once; it is collected exactly once over the
whole remaining lifetime when completion is first observed by `wait`, a ready
`poll` or `read` (the stderr payload being empty, so cleanup runs through the
reap), and exactly once when `close()` on a still-running handle finds the
child already dead or dying within the grace window; but a `close()` whose
child survives the grace window (the SIGKILL-escalation path) collects it
zero times over the whole lifetime while still marking the handle done, so
the child is never reaped on that path. -/
theorem c2_reap_at_most_once
    (eloads : List Char → List Char × List Char × List Char)
    (h : Handle) (reg : List Handle) (ops : List Op) (i n now ind : Nat) :
    (runOps eloads h reg ops).2.2 ≤ 1 ∧
    (h.done = false → h.cread.closed = false →
      (∀ er, h.errread = some er → er.content = []) →
      (runOps eloads h reg (.wait i n :: ops)).2.2 = 1 ∧
      (runOps eloads h reg (.poll true i n :: ops)).2.2 = 1 ∧
      (runOps eloads h reg (.read i n :: ops)).2.2 = 1) ∧
    (h.done = false → h.closed = false →
      (runOps eloads h reg (.close (.exited ind) now :: ops)).2.2 = 1 ∧
      (runOps eloads h reg (.close (.diesInGrace ind) now :: ops)).2.2 = 1 ∧
      (runOps eloads h reg (.close .survives now :: ops)).2.2 = 0 ∧
      (closeH h reg .survives now).h.done = true ∧
      (closeH h reg .survives now).signals = [SIGTERM, SIGKILL]) := by
  refine ⟨runOps_reaps_le eloads ops h reg, fun hd hc herr => ?_, fun hd hcl => ?_⟩
  · have hcc := cleanup_completes eloads h reg i n hd herr
    refine ⟨runOps_cons_of_step eloads h reg _ ops 1 ?_ ?_,
      runOps_cons_of_step eloads h reg _ ops 1 ?_ ?_,
      runOps_cons_of_step eloads h reg _ ops 1 ?_ ?_⟩
    · simpa [step, waitH, hd, hc] using hcc.1
    · simpa [step, waitH, hd, hc] using hcc.2.1
    · simpa [step, pollH, hd, hc] using hcc.1
    · simpa [step, pollH, hd, hc] using hcc.2.1
    · simpa [step, readH, waitH, hd, hc, hcc.2.2] using hcc.1
    · simpa [step, readH, waitH, hd, hc, hcc.2.2] using hcc.2.1
  · refine ⟨runOps_cons_of_step eloads h reg _ ops 1 ?_ ?_,
      runOps_cons_of_step eloads h reg _ ops 1 ?_ ?_,
      runOps_cons_of_step eloads h reg _ ops 0 ?_ ?_, ?_, ?_⟩ <;>
      simp [step, closeH, hcl, hd, kill]

/-- Witness for C2's amended statement at a concrete fresh handle. -/
theorem c2_witness :
    (runOps eloads0 (mkHandle 0 101 0 "abc".toList (some []))
        [] [.poll false 0 1, .read 0 2, .close .gone 3]).2.2 ≤ 1 ∧
    ((runOps eloads0 (mkHandle 0 101 0 "abc".toList (some [])) []
        (.wait 2 3 :: [.poll false 0 1, .read 0 2, .close .gone 3])).2.2 = 1 ∧
      (runOps eloads0 (mkHandle 0 101 0 "abc".toList (some [])) []
        (.poll true 2 3 :: [.poll false 0 1, .read 0 2, .close .gone 3])).2.2 = 1 ∧
      (runOps eloads0 (mkHandle 0 101 0 "abc".toList (some [])) []
        (.read 2 3 :: [.poll false 0 1, .read 0 2, .close .gone 3])).2.2 = 1) ∧
    ((runOps eloads0 (mkHandle 0 101 0 "abc".toList (some [])) []
        (.close (.exited 7) 5 :: [.poll false 0 1, .read 0 2, .close .gone 3])).2.2 = 1 ∧
      (runOps eloads0 (mkHandle 0 101 0 "abc".toList (some [])) []
        (.close (.diesInGrace 7) 5 :: [.poll false 0 1, .read 0 2, .close .gone 3])).2.2 = 1 ∧
      (runOps eloads0 (mkHandle 0 101 0 "abc".toList (some [])) []
        (.close .survives 5 :: [.poll false 0 1, .read 0 2, .close .gone 3])).2.2 = 0 ∧
      (closeH (mkHandle 0 101 0 "abc".toList (some [])) [] .survives 5).h.done = true ∧
      (closeH (mkHandle 0 101 0 "abc".toList (some [])) [] .survives 5).signals =
        [SIGTERM, SIGKILL]) :=
  ⟨(c2_reap_at_most_once eloads0 (mkHandle 0 101 0 "abc".toList (some []))
      [] [.poll false 0 1, .read 0 2, .close .gone 3] 2 3 5 7).1,
    (c2_reap_at_most_once eloads0 (mkHandle 0 101 0 "abc".toList (some []))
      [] [.poll false 0 1, .read 0 2, .close .gone 3] 2 3 5 7).2.1 (by decide) (by decide)
      (by intro er he; injection he with h2; rw [← h2]),
    (c2_reap_at_most_once eloads0 (mkHandle 0 101 0 "abc".toList (some []))
      [] [.poll false 0 1, .read 0 2, .close .gone 3] 2 3 5 7).2.2 (by decide) (by decide)⟩

/-- C2 (counterexample to the claim as stated): a handle whose child survives
the grace window, closed immediately and then subjected to further
wait/poll/read/close calls over its whole (now closed) lifetime: escalation to
SIGKILL occurred, yet the exit status is collected zero times, not exactly
once. -/
theorem c2_counterexample :
    (runOps eloads0 (mkHandle 0 101 0 "abc".toList (some [])) []
        [.close .survives 5, .wait 0 6, .poll true 0 7, .read 0 8,
          .close (.exited 0) 9]).2.2 = 0 ∧
    (closeH (mkHandle 0 101 0 "abc".toList (some [])) [] .survives 5).signals =
      [SIGTERM, SIGKILL] ∧
    (runOps eloads0 (mkHandle 0 101 0 "abc".toList (some [])) []
        [.close .survives 5, .wait 0 6, .poll true 0 7, .read 0 8,
          .close (.exited 0) 9]).1.closed = true := by
  decide

theorem count_le_one_eraseP (hid : Nat) :
    ∀ (reg : List Handle), (reg.map Handle.hid).count hid ≤ 1 →
      hid ∉ (reg.eraseP (fun x => x.hid == hid)).map Handle.hid := by
  intro reg
  induction reg with
  | nil => intro _; simp
  | cons a l ih =>
      intro hcount
      by_cases ha : a.hid = hid
      · have hz : (l.map Handle.hid).count hid = 0 := by
          simp [List.count_cons, ha] at hcount
          omega
        have hnm : hid ∉ l.map Handle.hid := by
          exact List.count_eq_zero.mp hz
        simpa [List.eraseP_cons, ha] using hnm
      · have h2 : (l.map Handle.hid).count hid ≤ 1 := by
          simp [List.count_cons] at hcount
          omega
        have hne : (a.hid == hid) = false := by
          simpa using ha
        simp [List.eraseP_cons, hne]
        exact ⟨fun he => ha he.symm, fun x hx hxe => (ih h2) (by
          simpa [hxe] using List.mem_map_of_mem Handle.hid hx)⟩

theorem closeH_closes (h : Handle) (reg : List Handle) (b : ChildBehavior) (now : Nat) :
    (closeH h reg b now).h.closed = true := by
  by_cases hc : h.closed <;> by_cases hd : h.done <;> simp [closeH, hc, hd]

theorem cleanupAll_empties (b : Nat → ChildBehavior) (now : Nat) :
    ∀ (active : List Handle), (∀ x ∈ active, x.closed = false) →
      (cleanupAll b now active active).2 = [] := by
  intro active
  induction active with
  | nil => intro _; rfl
  | cons h rest ih =>
      intro hall
      have hc : h.closed = false := hall h (List.mem_cons_self h rest)
      have hreg : (closeH h (h :: rest) (b h.hid) now).reg = rest := by
        by_cases hd : h.done <;> simp [closeH, hc, hd, List.eraseP_cons]
      simp only [cleanupAll, hreg]
      exact ih (fun x hx => hall x (List.mem_cons_of_mem h hx))

theorem cleanupAll_closes (b : Nat → ChildBehavior) (now : Nat) :
    ∀ (snapshot active : List Handle),
      ∀ x ∈ (cleanupAll b now snapshot active).1, x.closed = true := by
  intro snapshot
  induction snapshot with
  | nil => intro active x hx; simp [cleanupAll] at hx
  | cons h rest ih =>
      intro active x hx
      simp only [cleanupAll, List.mem_cons] at hx
      cases hx with
      | inl he => rw [he]; exact closeH_closes h active (b h.hid) now
      | inr hm => exact ih _ x hm

theorem step_reg_sublist
    (eloads : List Char → List Char × List Char × List Char)
    (h : Handle) (reg : List Handle) (op : Op) :
    List.Sublist ((step eloads h reg op).2.1) reg := by
  have hfin : ∀ (h1 : Handle) (i n : Nat),
      List.Sublist ((finishCleanup h1 reg i n).reg) reg := by
    intro h1 i n
    simpa [finishCleanup] using List.eraseP_sublist reg
  have hcl : ∀ (i n : Nat), List.Sublist ((cleanupChild eloads h reg i n).reg) reg := by
    intro i n
    unfold cleanupChild
    by_cases hd : h.done
    · simp [hd]
    · cases herr : h.errread with
      | none => simpa [hd, herr] using hfin _ i n
      | some er =>
          by_cases he : er.content.isEmpty
          · simpa [hd, herr, he] using hfin _ i n
          · simp [hd, herr, he]
  cases op with
  | wait i n =>
      by_cases hd : h.done
      · simp [step, waitH, hd]
      · by_cases hc : h.cread.closed
        · simp [step, waitH, hd, hc]
        · simpa [step, waitH, hd, hc] using hcl i n
  | poll r i n =>
      by_cases hd : h.done
      · simp [step, pollH, hd]
      · by_cases hc : h.cread.closed
        · simp [step, pollH, hd, hc]
        · cases r with
          | false => simp [step, pollH, hd, hc]
          | true => simpa [step, pollH, hd, hc] using hcl i n
  | read i n =>
      by_cases hd : h.done
      · simp [step, readH, waitH, hd]
      · by_cases hc : h.cread.closed
        · simp [step, readH, waitH, hd, hc]
        · cases hr : (cleanupChild eloads h reg i n).raised with
          | none => simpa [step, readH, waitH, hd, hc, hr] using hcl i n
          | some e => simpa [step, readH, waitH, hd, hc, hr] using hcl i n
  | close b n =>
      by_cases hc : h.closed
      · simp [step, closeH, hc]
      · by_cases hd : h.done <;>
          simpa [step, closeH, hc, hd] using List.eraseP_sublist reg

/-- C8: the registry never contains a handle after it reaches `Closed`:
(i) `close()` on a not-yet-closed handle removes it from any registry that
holds it at most once; (ii) the SIGTERM hook's `_cleanup` closes every live
handle and leaves the registry empty; (iii) no lifecycle call ever inserts
into the registry (each leaves it a sublist of what it was), so a removed
handle never reappears. -/
theorem c8_closed_handle_not_in_registry
    (eloads : List Char → List Char × List Char × List Char)
    (b : Nat → ChildBehavior) (bb : ChildBehavior) (now : Nat) :
    (∀ (h : Handle) (reg : List Handle), h.closed = false →
        (reg.map Handle.hid).count h.hid ≤ 1 →
        h.hid ∉ ((closeH h reg bb now).reg.map Handle.hid)) ∧
    (∀ active : List Handle, (∀ x ∈ active, x.closed = false) →
        (cleanupAll b now active active).2 = [] ∧
        ∀ x ∈ (cleanupAll b now active active).1, x.closed = true) ∧
    (∀ (h : Handle) (reg : List Handle) (op : Op),
        List.Sublist ((step eloads h reg op).2.1) reg) := by
  refine ⟨fun h reg hc hcount => ?_,
    fun active hall => ⟨cleanupAll_empties b now active hall, cleanupAll_closes b now active active⟩,
    fun h reg op => step_reg_sublist eloads h reg op⟩
  have : (closeH h reg bb now).reg = reg.eraseP (fun x => x.hid == h.hid) := by
    by_cases hd : h.done <;> simp [closeH, hc, hd]
  rw [this]
  exact count_le_one_eraseP h.hid reg hcount

/-- Witness for C8 at a concrete one-handle registry. -/
theorem c8_witness :
    (3 ∉ ((closeH (mkHandle 3 101 0 [] none) [mkHandle 3 101 0 [] none]
        .gone 5).reg.map Handle.hid)) ∧
    ((cleanupAll (fun _ => .exited 0) 5 [mkHandle 3 101 0 [] none]
        [mkHandle 3 101 0 [] none]).2 = [] ∧
      ∀ x ∈ (cleanupAll (fun _ => .exited 0) 5 [mkHandle 3 101 0 [] none]
        [mkHandle 3 101 0 [] none]).1, x.closed = true) ∧
    List.Sublist ((step eloads0 (mkHandle 3 101 0 [] none)
        [mkHandle 3 101 0 [] none] (.wait 0 1)).2.1) [mkHandle 3 101 0 [] none] :=
  ⟨(c8_closed_handle_not_in_registry eloads0 (fun _ => .exited 0) .gone 5).1
      (mkHandle 3 101 0 [] none) [mkHandle 3 101 0 [] none] (by decide) (by decide),
    (c8_closed_handle_not_in_registry eloads0 (fun _ => .exited 0) .gone 5).2.1
      [mkHandle 3 101 0 [] none] (by decide),
    (c8_closed_handle_not_in_registry eloads0 (fun _ => .exited 0) .gone 5).2.2
      (mkHandle 3 101 0 [] none) [mkHandle 3 101 0 [] none] (.wait 0 1)⟩

/-- C9 (counterexample to the claim as stated): `read` is not forwarded to the
wrapped handle unchanged.  On a handle whose child wrote the 43-byte payload
`dumps0 42`, the wrapped `_CommandHandle.read` returns those 43 raw bytes,
while `_PickleHandle.read` returns the deserialized value `42`; attribute
resolution for `read` hits the adapter's own overriding method, not the
`__getattr__` forwarding path. -/
theorem c9_counterexample :
    (pickleRead Nat loads0 eloads0 (mkHandle 0 101 0 (dumps0 42) (some []))
        [] 0 1).1 = .value 42 ∧
    (readH eloads0 (mkHandle 0 101 0 (dumps0 42) (some [])) [] 0 1).result =
      List.replicate 43 'a' ∧
    pickleAttr "read".toList = .ownRead ∧
    Dispatch.ownRead ≠ Dispatch.forward := by
  decide

/-- C9 (amended): on the typed-result adapter, `readline` and `readlines`
raise `AttributeError` (a usage error); `close`, `wait`, `poll`, `elapsed`,
`fileno`, `pid`, `status` and `killsig` are forwarded unchanged to the wrapped
handle; `read` resolves to the adapter's own deserializing override rather
than being forwarded unchanged. -/
theorem c9_adapter_dispatch :
    pickleAttr "readline".toList = .attrError ∧
    pickleAttr "readlines".toList = .attrError ∧
    pickleAttr "read".toList = .ownRead ∧
    (["close", "wait", "poll", "elapsed", "fileno", "pid", "status",
        "killsig"].all (fun a => pickleAttr a.toList == .forward)) = true := by
  decide

theorem readH_fresh
    (eloads : List Char → List Char × List Char × List Char)
    (hid pid t0 : Nat) (w : List Char) (reg : List Handle) (i n : Nat) :
    (readH eloads (mkHandle hid pid t0 w (some [])) reg i n).raised = none ∧
    (readH eloads (mkHandle hid pid t0 w (some [])) reg i n).result = w := by
  simp [readH, waitH, cleanupChild, finishCleanup, mkHandle, readlines_flatten]

theorem readH_done
    (eloads : List Char → List Char × List Char × List Char)
    (x : Handle) (reg : List Handle) (i n : Nat) (hd : x.done = true) :
    (readH eloads x reg i n).raised = none ∧
    (readH eloads x reg i n).result = x.output.flatten := by
  simp [readH, waitH, hd]

theorem pickleRead_value (α : Type) (loads : List Char → Option α)
    (eloads : List Char → List Char × List Char × List Char)
    (h : Handle) (reg : List Handle) (i n : Nat) (s : List Char) (v : α)
    (h1 : (readH eloads h reg i n).raised = none)
    (h2 : (readH eloads h reg i n).result = s)
    (h3 : s ≠ []) (h4 : loads s = some v) :
    (pickleRead α loads eloads h reg i n).1 = .value v := by
  simp only [pickleRead]
  rw [h1, h2]
  simp [h3, h4]

theorem poll_invariant
    (eloads : List Char → List Char × List Char × List Char)
    (hid pid t0 : Nat) (w : List Char) (ops : List Op) :
    pollsOnly ops = true →
    ∀ (x : Handle) (reg : List Handle),
      (x = mkHandle hid pid t0 w (some []) ∨
        (x.done = true ∧ x.output = readlines w)) →
      ((runOps eloads x reg ops).1 = mkHandle hid pid t0 w (some []) ∨
        ((runOps eloads x reg ops).1.done = true ∧
          (runOps eloads x reg ops).1.output = readlines w)) := by
  induction ops with
  | nil => intro _ x reg hx; simpa [runOps] using hx
  | cons op ops ih =>
      intro hops x reg hx
      cases op with
      | wait i n => simp [pollsOnly] at hops
      | read i n => simp [pollsOnly] at hops
      | close b n => simp [pollsOnly] at hops
      | poll r i n =>
          have htail : pollsOnly ops = true := by
            simpa [pollsOnly] using hops
          have hstep : (step eloads x reg (.poll r i n)).1 =
              mkHandle hid pid t0 w (some []) ∨
              ((step eloads x reg (.poll r i n)).1.done = true ∧
                (step eloads x reg (.poll r i n)).1.output = readlines w) := by
            cases hx with
            | inl he =>
                subst he
                cases r with
                | false => left; simp [step, pollH, mkHandle]
                | true =>
                    right
                    simp [step, pollH, cleanupChild, finishCleanup, mkHandle,
                      readlines]
            | inr hd =>
                right
                simpa [step, pollH, hd.1] using hd
          simpa [runOps] using ih htail (step eloads x reg (.poll r i n)).1
            (step eloads x reg (.poll r i n)).2.1 hstep

/-- C5: for every callable handle whose function returned a value `v` that the
payload codec serializes (`loads (dumps v) = some v`, payload non-empty, as
pickle guarantees), `read()` on the typed-result handle returns `.value v`,
regardless of how many `poll()` calls (ready or not) preceded it. -/
theorem c5_pickle_roundtrip (α : Type) (dumps : α → List Char)
    (loads : List Char → Option α)
    (eloads : List Char → List Char × List Char × List Char)
    (v : α) (hid pid t0 i n : Nat) (reg : List Handle) (ops : List Op)
    (hrt : loads (dumps v) = some v) (hne : dumps v ≠ [])
    (hops : pollsOnly ops = true) :
    (pickleRead α loads eloads
      (runOps eloads (mkHandle hid pid t0 (dumps v) (some [])) reg ops).1
      (runOps eloads (mkHandle hid pid t0 (dumps v) (some [])) reg ops).2.1
      i n).1 = .value v := by
  have hinv := poll_invariant eloads hid pid t0 (dumps v) ops hops
    (mkHandle hid pid t0 (dumps v) (some [])) reg (Or.inl rfl)
  cases hinv with
  | inl hfresh =>
      have hr := readH_fresh eloads hid pid t0 (dumps v)
        (runOps eloads (mkHandle hid pid t0 (dumps v) (some [])) reg ops).2.1 i n
      exact pickleRead_value α loads eloads _ _ i n (dumps v) v
        (by rw [hfresh]; exact hr.1) (by rw [hfresh]; exact hr.2) hne hrt
  | inr hdone =>
      have hr := readH_done eloads
        (runOps eloads (mkHandle hid pid t0 (dumps v) (some [])) reg ops).1
        (runOps eloads (mkHandle hid pid t0 (dumps v) (some [])) reg ops).2.1
        i n hdone.1
      exact pickleRead_value α loads eloads _ _ i n (dumps v) v hr.1
        (by rw [hr.2, hdone.2, readlines_flatten]) hne hrt

/-- Witness for C5: the codec `dumps0`/`loads0`, value 42, one unready and one
ready poll before the read. -/
theorem c5_witness :
    (pickleRead Nat loads0 eloads0
      (runOps eloads0 (mkHandle 0 101 0 (dumps0 42) (some [])) []
        [.poll false 0 1, .poll true 2 3]).1
      (runOps eloads0 (mkHandle 0 101 0 (dumps0 42) (some [])) []
        [.poll false 0 1, .poll true 2 3]).2.1
      0 4).1 = .value 42 :=
  c5_pickle_roundtrip Nat dumps0 loads0 eloads0 42 0 101 0 0 4 []
    [.poll false 0 1, .poll true 2 3] (by decide) (by decide) (by decide)

/-- C6: for a callable handle whose function raised — the child pickled the
`(etype, value, traceback)` triple to the stderr pipe and wrote nothing to
stdout — whichever of `wait`, `poll` (observing readiness) or `read` first
observes completion raises `etype, value`: the same kind `et` and message `ev`
the child recorded.  An unready `poll` changes nothing and raises nothing, so
the error surfaces synchronously at exactly the first observing call. -/
theorem c6_child_error_same_kind_message
    (eloads : List Char → List Char × List Char × List Char)
    (e et ev tb : List Char) (he : eloads e = (et, ev, tb)) (hne : e ≠ [])
    (hid pid t0 i n : Nat) (reg : List Handle) :
    (waitH eloads (mkHandle hid pid t0 [] (some e)) reg i n).raised =
      some (.childError et ev) ∧
    ((pollH eloads (mkHandle hid pid t0 [] (some e)) reg true i n).1).raised =
      some (.childError et ev) ∧
    (readH eloads (mkHandle hid pid t0 [] (some e)) reg i n).raised =
      some (.childError et ev) ∧
    (pollH eloads (mkHandle hid pid t0 [] (some e)) reg false i n).1.h =
      mkHandle hid pid t0 [] (some e) ∧
    (pollH eloads (mkHandle hid pid t0 [] (some e)) reg false i n).1.raised =
      none := by
  have hie : e.isEmpty = false := by
    cases e with
    | nil => exact absurd rfl hne
    | cons a l => rfl
  refine ⟨?_, ?_, ?_, ?_, ?_⟩ <;>
    simp [waitH, pollH, readH, cleanupChild, mkHandle, hie, he]

/-- Witness for C6 with the concrete error codec `eloads0`. -/
theorem c6_witness :
    (waitH eloads0 (mkHandle 0 101 0 [] (some "X".toList)) [] 0 1).raised =
      some (.childError "SomeError".toList "bad input".toList) ∧
    ((pollH eloads0 (mkHandle 0 101 0 [] (some "X".toList)) [] true 0 1).1).raised =
      some (.childError "SomeError".toList "bad input".toList) ∧
    (readH eloads0 (mkHandle 0 101 0 [] (some "X".toList)) [] 0 1).raised =
      some (.childError "SomeError".toList "bad input".toList) ∧
    (pollH eloads0 (mkHandle 0 101 0 [] (some "X".toList)) [] false 0 1).1.h =
      mkHandle 0 101 0 [] (some "X".toList) ∧
    (pollH eloads0 (mkHandle 0 101 0 [] (some "X".toList)) [] false 0 1).1.raised =
      none :=
  c6_child_error_same_kind_message eloads0 "X".toList "SomeError".toList
    "bad input".toList [] (by decide) (by decide) 0 101 0 0 1 []

/-- C10: when cleanup finds a non-empty error payload on the stderr stream,
the error is raised before the handle is unregistered (registry unchanged),
before the child is reaped (zero reaps) and before `_done` is set; the handle
is left not-done and not-closed — i.e. still `Running` — with its stdout
stream already closed, and every subsequent `wait`/`poll`/`read` raises the
`ValueError` from selecting on a closed stream instead of returning data or
completing. -/
theorem c10_error_path_wedges_handle
    (eloads : List Char → List Char × List Char × List Char)
    (e : List Char) (hne : e ≠ [])
    (hid pid t0 i n i2 n2 i3 n3 : Nat) (w : List Char) (reg : List Handle)
    (ready : Bool) :
    (waitH eloads (mkHandle hid pid t0 w (some e)) reg i n).raised =
      some (.childError (eloads e).1 (eloads e).2.1) ∧
    (waitH eloads (mkHandle hid pid t0 w (some e)) reg i n).reg = reg ∧
    (waitH eloads (mkHandle hid pid t0 w (some e)) reg i n).reaps = 0 ∧
    (waitH eloads (mkHandle hid pid t0 w (some e)) reg i n).h.done = false ∧
    (waitH eloads (mkHandle hid pid t0 w (some e)) reg i n).h.closed = false ∧
    (waitH eloads (mkHandle hid pid t0 w (some e)) reg i n).h.cread.closed = true ∧
    (waitH eloads
      (waitH eloads (mkHandle hid pid t0 w (some e)) reg i n).h reg i2 n2).raised =
      some .valueError ∧
    ((pollH eloads
      (waitH eloads (mkHandle hid pid t0 w (some e)) reg i n).h reg ready i2 n2).1).raised =
      some .valueError ∧
    (readH eloads
      (waitH eloads (mkHandle hid pid t0 w (some e)) reg i n).h reg i3 n3).raised =
      some .valueError := by
  have hie : e.isEmpty = false := by
    cases e with
    | nil => exact absurd rfl hne
    | cons a l => rfl
  have h1 : waitH eloads (mkHandle hid pid t0 w (some e)) reg i n =
      ⟨⟨hid, pid, none, none, t0, none, ⟨[], true⟩, some ⟨[], true⟩,
          readlines w, false, false⟩,
        reg, some (.childError (eloads e).1 (eloads e).2.1), 0⟩ := by
    simp [waitH, cleanupChild, mkHandle, hie]
  rw [h1]
  refine ⟨rfl, rfl, rfl, rfl, rfl, rfl, ?_, ?_, ?_⟩ <;>
    simp [waitH, pollH, readH]

/-- Witness for C10 at a concrete payload. -/
theorem c10_witness :
    (waitH eloads0 (mkHandle 0 101 0 "out".toList (some "X".toList)) [] 0 1).raised =
      some (.childError (eloads0 "X".toList).1 (eloads0 "X".toList).2.1) ∧
    (waitH eloads0 (mkHandle 0 101 0 "out".toList (some "X".toList)) [] 0 1).reg = [] ∧
    (waitH eloads0 (mkHandle 0 101 0 "out".toList (some "X".toList)) [] 0 1).reaps = 0 ∧
    (waitH eloads0 (mkHandle 0 101 0 "out".toList (some "X".toList)) [] 0 1).h.done =
      false ∧
    (waitH eloads0 (mkHandle 0 101 0 "out".toList (some "X".toList)) [] 0 1).h.closed =
      false ∧
    (waitH eloads0
      (mkHandle 0 101 0 "out".toList (some "X".toList)) [] 0 1).h.cread.closed = true ∧
    (waitH eloads0
      (waitH eloads0 (mkHandle 0 101 0 "out".toList (some "X".toList)) [] 0 1).h
      [] 2 3).raised = some .valueError ∧
    ((pollH eloads0
      (waitH eloads0 (mkHandle 0 101 0 "out".toList (some "X".toList)) [] 0 1).h
      [] true 2 3).1).raised = some .valueError ∧
    (readH eloads0
      (waitH eloads0 (mkHandle 0 101 0 "out".toList (some "X".toList)) [] 0 1).h
      [] 4 5).raised = some .valueError :=
  c10_error_path_wedges_handle eloads0 "X".toList (by decide) 0 101 0 0 1 2 3 4 5
    "out".toList [] true

end Copen
